import Mathlib

/-!
# Verification of the tourism-exploration backend (src/main.py)

A shallow embedding of the data-aggregation and caching pipeline of the
Flask application in `src/main.py`: the POI fetcher (`fetch_pois`), the
weather fetcher (`fetch_weather`), the route ranker (`calculate_routes`
and the `/pois` endpoint), the directions endpoint (`get_directions`),
and the TTL caches used by the memoization decorator `timed_lru_cache`
and by the module-level `POI_CACHE`.

Modelling conventions:
* Python floats are modelled as rationals (`ℚ`); `round(x, n)` is
  modelled as rounding to the nearest multiple of `10 ^ (-n)`.
* JSON dictionaries coming from the provider are modelled as structures
  with `Option` fields (a missing key raises `KeyError` in Python, which
  the per-element `except` swallows; our model returns `none` there).
* Network interaction is an explicit oracle argument: each call receives
  the provider response (`none` models any `requests.RequestException`,
  timeout, non-2xx status or JSON decoding failure, all of which the
  source catches in one branch), and every modelled call reports whether
  it issued a network request.
* `random.uniform(3.5, 5.0)` is an oracle stream `rng : ℕ → ℚ`; the i-th
  retained element consumes `rng i`, matching the call order in the
  source loop.
* Wall-clock time is an explicit `now : ℚ` argument.
-/

namespace Turismo

/-- Python `round(x, 1)`: round to the nearest multiple of 1/10.
(Python uses round-half-to-even on floats; no property below depends on
the tie-breaking rule, only on monotonicity and bounds.) -/
def round1 (x : ℚ) : ℚ := ((round (10 * x) : ℤ) : ℚ) / 10

/-- Python `round(x, 2)`: round to the nearest multiple of 1/100. -/
def round2 (x : ℚ) : ℚ := ((round (100 * x) : ℤ) : ℚ) / 100

/-- Python `dict.get(k, default)` on a tags dictionary
(`tags.get('name', 'Sin nombre')` and friends in `fetch_pois`). -/
def getD (tags : List (String × String)) (k : String) (d : String) : String :=
  match tags.find? (fun kv => kv.1 = k) with
  | some kv => kv.2
  | none => d

/-- A raw Overpass element (`data['elements'][i]` in `fetch_pois`).
Fields accessed with `element['...']` in Python raise `KeyError` when
absent, hence `Option`; `tags` is read with `element.get('tags', {})`,
so an absent dictionary is the empty association list. -/
structure Element where
  type : Option String
  id : Option Int
  lat : Option ℚ
  lon : Option ℚ
  nodes : Option (List Int)
  tags : List (String × String)
deriving DecidableEq, Repr

/-- The decoded Overpass response body (`data.get('elements', [])`). -/
structure OverpassData where
  elements : List Element
deriving DecidableEq, Repr

/-- A normalized point of interest, the dictionary built at
src/main.py lines 152-162. -/
structure POI where
  name : String
  location : ℚ × ℚ
  address : String
  type : String
  rating : ℚ
  description : String
  phone : String
  website : String
  opening_hours : String
deriving DecidableEq, Repr

/-- The latitude list comprehension for a way (src/main.py line 140):
`[node['lat'] for node in data['elements'] if node['type'] == 'node' and
node['id'] in element['nodes']]`.  A `KeyError` anywhere in the
comprehension (missing `type` on any element, or missing `id`/`lat` on a
matching node) aborts the whole comprehension, which the per-element
`except` turns into skipping the way: modelled by `none`. -/
def collectLats (elements : List Element) (ids : List Int) : Option (List ℚ) :=
  match elements with
  | [] => some []
  | n :: rest => do
    let t ← n.type
    if t = "node" then
      let i ← n.id
      if i ∈ ids then do
        let la ← n.lat
        let ls ← collectLats rest ids
        pure (la :: ls)
      else collectLats rest ids
    else collectLats rest ids

/-- The longitude comprehension for a way (src/main.py line 141). -/
def collectLons (elements : List Element) (ids : List Int) : Option (List ℚ) :=
  match elements with
  | [] => some []
  | n :: rest => do
    let t ← n.type
    if t = "node" then
      let i ← n.id
      if i ∈ ids then do
        let lo ← n.lon
        let ls ← collectLons rest ids
        pure (lo :: ls)
      else collectLons rest ids
    else collectLons rest ids

/-- `sum(xs)/len(xs)` (src/main.py line 143). -/
def listMean (l : List ℚ) : ℚ := l.sum / l.length

/-- Coordinate resolution for one element (src/main.py lines 136-145).
`last` is the value of the Python loop variables `lat, lon` left over
from a previous iteration: an element that is neither a node nor a way
falls through both branches and reuses them (or raises `NameError` when
they were never assigned, which the `except` turns into a skip).
`none` means the element is skipped and `lat, lon` keep their previous
value (`continue`, `KeyError`, `NameError`, or a way with no resolved
constituent points). -/
def resolveCoord (elements : List Element) (last : Option (ℚ × ℚ))
    (e : Element) : Option (ℚ × ℚ) :=
  if e.type = some "node" then do
    let la ← e.lat
    let lo ← e.lon
    pure (la, lo)
  else if e.type = some "way" then do
    let ids ← e.nodes
    let lats ← collectLats elements ids
    let lons ← collectLons elements ids
    if lats ≠ [] ∧ lons ≠ [] then pure (listMean lats, listMean lons)
    else none
  else
    last

/-- The fields of a POI that do not depend on the rating sample
(src/main.py lines 147-162, minus `rating` and `type`). -/
structure POIBase where
  name : String
  location : ℚ × ℚ
  address : String
  description : String
  phone : String
  website : String
  opening_hours : String
deriving DecidableEq, Repr

/-- Build the rating-independent POI fields from an element and its
resolved coordinate (src/main.py lines 147-162). -/
def mkBase (e : Element) (c : ℚ × ℚ) : POIBase :=
  { name := getD e.tags "name" "Sin nombre"
    location := c
    address := getD e.tags "addr:street" "Sin dirección"
    description := getD e.tags "description" ""
    phone := getD e.tags "phone" ""
    website := getD e.tags "website" ""
    opening_hours := getD e.tags "opening_hours" "" }

/-- The element loop of `fetch_pois` (src/main.py lines 133-166):
`elements` is the full `data['elements']` list (ways look nodes up in
it), `last` is the loop-carried `lat, lon` pair, and the second list is
the remaining iteration suffix.  An element whose name resolves to the
default `'Sin nombre'` is skipped AFTER its coordinate was assigned to
the loop variables. -/
def processElems (elements : List Element) :
    Option (ℚ × ℚ) → List Element → List POIBase
  | _, [] => []
  | last, e :: rest =>
    match resolveCoord elements last e with
    | none => processElems elements last rest
    | some c =>
      if getD e.tags "name" "Sin nombre" = "Sin nombre" then
        processElems elements (some c) rest
      else
        mkBase e c :: processElems elements (some c) rest

/-- Complete a POI record from its base fields, the requested category
(`"type": category`, src/main.py line 156) and the rounded rating sample
(line 157). -/
def mkPOI (cat : String) (b : POIBase) (r : ℚ) : POI :=
  { name := b.name, location := b.location, address := b.address,
    type := cat, rating := r, description := b.description,
    phone := b.phone, website := b.website,
    opening_hours := b.opening_hours }

/-- Attach the synthetic ratings: the i-th retained element receives
`round(random.uniform(3.5, 5.0), 1)`, i.e. `round1 (rng i)`
(src/main.py line 157). -/
def attachRatings (cat : String) (rng : ℕ → ℚ) : ℕ → List POIBase → List POI
  | _, [] => []
  | i, b :: bs => mkPOI cat b (round1 (rng i)) :: attachRatings cat rng (i + 1) bs

/-- The list `pois` built by `fetch_pois` from a decoded provider
response (src/main.py lines 133-166). -/
def buildPois (cat : String) (data : OverpassData) (rng : ℕ → ℚ) : List POI :=
  attachRatings cat rng 0 (processElems data.elements none data.elements)

/-- Modelled from the spec: the semantics of `cachetools.TTLCache`
(an external library; only its call sites are in src/).  Per §3 of the
spec a cache entry is `(key, value, insertion time, TTL)`, "visible to
readers only while now - insertion_time < TTL", the capacity is bounded,
and "when full, insertion evicts using a least-recently-used-or-expired
policy".  `entries` is kept in most-recently-used-first order. -/
structure TTLCacheM (κ : Type) (α : Type) where
  maxsize : ℕ
  ttl : ℚ
  entries : List (κ × α × ℚ)
deriving DecidableEq, Repr

/-- Cache read (`cache[key]` inside `timed_lru_cache`, or
`cache_key in POI_CACHE` / `POI_CACHE[cache_key]` in `fetch_pois`):
the value, provided an entry with that key exists and is unexpired. -/
def cacheLookup {κ α : Type} [DecidableEq κ] (c : TTLCacheM κ α) (now : ℚ)
    (k : κ) : Option α :=
  match c.entries.find? (fun e => e.1 = k) with
  | some e => if now < e.2.2 + c.ttl then some e.2.1 else none
  | none => none

/-- The recency update a successful read performs (an LRU cache moves the
entry read to most-recently-used position; insertion time unchanged). -/
def cacheTouch {κ α : Type} [DecidableEq κ] (c : TTLCacheM κ α) (now : ℚ)
    (k : κ) : TTLCacheM κ α :=
  match c.entries.find? (fun e => e.1 = k) with
  | some e =>
    if now < e.2.2 + c.ttl then
      { c with entries := e :: c.entries.filter (fun x => ¬ x.1 = k) }
    else c
  | none => c

/-- Cache write (`cache[key] = result` / `POI_CACHE[cache_key] = pois`):
drop expired entries, replace any previous entry for the key, and if
still at capacity evict the least-recently-used entry (the last of the
recency-ordered list); the new entry becomes most recently used. -/
def cacheInsert {κ α : Type} [DecidableEq κ] (c : TTLCacheM κ α) (now : ℚ)
    (k : κ) (v : α) : TTLCacheM κ α :=
  let live := c.entries.filter (fun e => decide (now < e.2.2 + c.ttl))
  let kept := live.filter (fun e => ¬ e.1 = k)
  let room := if kept.length + 1 > c.maxsize then kept.dropLast else kept
  { c with entries := (k, v, now) :: room }

/-- The mutable state visible to `fetch_pois`: the memoization cache the
`@timed_lru_cache(timeout=3600)` decorator closes over (src/main.py
lines 38-52, 67) and the module-level `POI_CACHE = TTLCache(maxsize=100,
ttl=86400)` (line 27).  The decorator key is `str(args) + str(kwargs)`,
which on the single string argument is an injective encoding of the
category; we model the key by the category string itself. -/
structure SysState where
  memo : TTLCacheM String (List POI)
  poi_cache : TTLCacheM String (List POI)
deriving DecidableEq, Repr

/-- The process-start state: both caches empty, with the configured
capacities and TTLs. -/
def initState : SysState :=
  { memo := { maxsize := 100, ttl := 3600, entries := [] }
    poi_cache := { maxsize := 100, ttl := 86400, entries := [] } }

/-- The fixed category enumeration: the keys of the `queries` dictionary
in `fetch_pois` (src/main.py lines 72-112). -/
def validCategories : List String := ["hotel", "restaurant", "attraction"]

/-- Result of one call to the decorated `fetch_pois`. -/
structure FetchResult where
  result : List POI
  state : SysState
  networkCalled : Bool
deriving Repr

/-- One call to the decorated `fetch_pois` (src/main.py lines 38-52 and
67-169).  Control flow, in source order: the `timed_lru_cache` wrapper
first tries its own cache; on a miss the body validates the category,
then consults `POI_CACHE`, then issues the network request (`provider`
is the decoded response, `none` for any `requests.RequestException`);
a freshly built list is stored in `POI_CACHE` and the wrapper stores
whatever the body returned in the memoization cache. -/
def fetch_pois (s : SysState) (now : ℚ) (category : String)
    (provider : Option OverpassData) (rng : ℕ → ℚ) : FetchResult :=
  match cacheLookup s.memo now category with
  | some v =>
    { result := v, state := { s with memo := cacheTouch s.memo now category },
      networkCalled := false }
  | none =>
    if category ∈ validCategories then
      match cacheLookup s.poi_cache now ("pois_" ++ category) with
      | some v =>
        { result := v
          state := { s with
            poi_cache := cacheTouch s.poi_cache now ("pois_" ++ category)
            memo := cacheInsert s.memo now category v }
          networkCalled := false }
      | none =>
        match provider with
        | none =>
          { result := []
            state := { s with memo := cacheInsert s.memo now category [] }
            networkCalled := true }
        | some data =>
          let ps := buildPois category data rng
          { result := ps
            state := { s with
              poi_cache := cacheInsert s.poi_cache now ("pois_" ++ category) ps
              memo := cacheInsert s.memo now category ps }
            networkCalled := true }
    else
      { result := []
        state := { s with memo := cacheInsert s.memo now category [] }
        networkCalled := false }

/-- One recorded call for trace-based statements about `fetch_pois`. -/
structure Call where
  now : ℚ
  category : String
  provider : Option OverpassData
  rng : ℕ → ℚ

/-- Run a sequence of `fetch_pois` calls, threading the cache state. -/
def runCalls : SysState → List Call → SysState
  | s, [] => s
  | s, c :: cs => runCalls (fetch_pois s c.now c.category c.provider c.rng).state cs

/-- Run calls of one fixed category, recording each call's
(result, network-request-issued) pair. -/
def runSameCat (cat : String) :
    SysState → List (ℚ × Option OverpassData × (ℕ → ℚ)) → List (List POI × Bool)
  | _, [] => []
  | s, c :: cs =>
    let r := fetch_pois s c.1 cat c.2.1 c.2.2
    (r.result, r.networkCalled) :: runSameCat cat r.state cs

/-- The weather dictionary built by `fetch_weather` (src/main.py lines
193-200).  Its construction from the provider JSON (capitalization,
rounding, the ×3.6 wind conversion) is not at issue in the claims
settled here, so a call's computed snapshot is supplied by the provider
oracle directly. -/
structure WeatherSnapshot where
  description : String
  temperature : ℤ
  feels_like : ℤ
  humidity : ℚ
  wind_speed : ℚ
  icon : String
deriving DecidableEq, Repr

/-- The memoization cache of `@timed_lru_cache(timeout=300)` on
`fetch_weather` (src/main.py lines 38-52 and 171): key
`str(args) + str(kwargs)` is an injective encoding of the exact
`(lat, lon)` argument pair, modelled by the pair itself. -/
def weatherCacheInit : TTLCacheM (ℚ × ℚ) (Option WeatherSnapshot) :=
  { maxsize := 100, ttl := 300, entries := [] }

/-- Result of one call to the decorated `fetch_weather`. -/
structure WeatherResult where
  result : Option WeatherSnapshot
  state : TTLCacheM (ℚ × ℚ) (Option WeatherSnapshot)
  networkCalled : Bool
deriving Repr

/-- One call to the decorated `fetch_weather` (src/main.py lines 38-52
and 171-203): the wrapper tries its cache on the exact argument pair; on
a miss the body returns `none` without a request when no API key is
configured, otherwise issues the request (`provider` is the computed
snapshot, `none` for a failed request); the wrapper stores the body's
result — including `none` — in the cache. -/
def fetch_weather (s : TTLCacheM (ℚ × ℚ) (Option WeatherSnapshot))
    (now lat lon : ℚ) (apiKey : Bool)
    (provider : Option WeatherSnapshot) : WeatherResult :=
  match cacheLookup s now (lat, lon) with
  | some v => { result := v, state := cacheTouch s now (lat, lon),
                networkCalled := false }
  | none =>
    let r := if apiKey then provider else none
    { result := r, state := cacheInsert s now (lat, lon) r,
      networkCalled := apiKey }

/-- One entry of the list returned by `calculate_routes`
(src/main.py lines 215-218). -/
structure RankedRoute where
  poi : POI
  distance : ℚ
deriving DecidableEq, Repr

/-- The sort key relation of `routes.sort(key=lambda x: x['distance'])`
(src/main.py line 222). -/
def distLE (a b : RankedRoute) : Prop := a.distance ≤ b.distance

instance : DecidableRel distLE :=
  fun a b => inferInstanceAs (Decidable (a.distance ≤ b.distance))

instance : IsTotal RankedRoute distLE := ⟨fun a b => le_total a.distance b.distance⟩

instance : IsTrans RankedRoute distLE :=
  ⟨fun _ _ _ hab hbc => le_trans hab hbc⟩

/-- `calculate_routes(user_location, pois)` (src/main.py lines 205-223):
for each POI compute the geodesic distance in km rounded to 2 decimals,
then sort ascending by distance.  The geodesic computation of the
external `geopy` library is an oracle `dist`; with well-formed coordinate
pairs the per-POI `except` branch is unreachable.  Python `list.sort` is
a stable sort, modelled by the stable `List.insertionSort`. -/
def calculate_routes (dist : ℚ × ℚ → ℚ × ℚ → ℚ) (user : ℚ × ℚ)
    (pois : List POI) : List RankedRoute :=
  List.insertionSort distLE
    (pois.map (fun p => { poi := p, distance := round2 (dist user p.location) }))

/-- The data pipeline of the `/pois/<category>` handler `get_pois`
(src/main.py lines 244-250) after the POI list has been fetched: filter
by minimum rating, then rank by distance. -/
def get_pois (dist : ℚ × ℚ → ℚ × ℚ → ℚ) (lat lon rating : ℚ)
    (pois : List POI) : List RankedRoute :=
  calculate_routes dist (lat, lon)
    (pois.filter (fun p => decide (rating ≤ p.rating)))

/-- One route of the OSRM response consumed by `get_directions`
(`data["routes"][0]`, src/main.py lines 297-302). -/
structure OsrmRoute where
  geometry : List (ℚ × ℚ)
  distance : ℚ
  duration : ℚ
deriving DecidableEq, Repr

/-- The decoded OSRM response body. -/
structure OsrmResponse where
  code : String
  routes : List OsrmRoute
deriving DecidableEq, Repr

/-- The JSON payload returned by the `/directions` handler. -/
inductive DirPayload where
  | err (msg : String)
  | route (coords : List (ℚ × ℚ)) (distance : ℚ) (duration : ℤ)
deriving DecidableEq, Repr

/-- Response of the `/directions` handler: payload, HTTP status, and
whether an outbound request to the routing provider was issued. -/
structure DirResult where
  payload : DirPayload
  status : ℕ
  networkCalled : Bool
deriving DecidableEq, Repr

/-- The `/directions` handler `get_directions` (src/main.py lines
271-308).  Each query parameter is read with
`request.args.get(..., type=float)`, which yields `None` when the
parameter is missing or unparsable, hence the `Option ℚ` inputs.  If any
of the four is `None` the handler returns 400 before any request;
otherwise `provider` models the OSRM response (`none` for a transport
failure, mapped to 503).  An `"Ok"` response with an empty route list
raises `IndexError`, which the `error_handler` decorator maps to 500. -/
def get_directions (start_lat start_lon end_lat end_lon : Option ℚ)
    (provider : Option OsrmResponse) : DirResult :=
  if start_lat = none ∨ start_lon = none ∨ end_lat = none ∨ end_lon = none then
    { payload := .err "Faltan parámetros de ubicación", status := 400,
      networkCalled := false }
  else
    match provider with
    | none =>
      { payload := .err "Error al obtener la ruta", status := 503,
        networkCalled := true }
    | some resp =>
      if resp.code = "Ok" then
        match resp.routes.head? with
        | some r =>
          { payload := .route r.geometry (round2 (r.distance / 1000))
              (round (r.duration / 60))
            status := 200, networkCalled := true }
        | none =>
          { payload := .err "Error interno del servidor", status := 500,
            networkCalled := true }
      else
        { payload := .err "No se pudo encontrar una ruta", status := 404,
          networkCalled := true }

/-! ## Cache lemmas -/

theorem cacheLookup_some {κ α : Type} [DecidableEq κ] {c : TTLCacheM κ α}
    {now : ℚ} {k : κ} {v : α} (h : cacheLookup c now k = some v) :
    ∃ t, (k, v, t) ∈ c.entries ∧ now < t + c.ttl := by
  unfold cacheLookup at h
  cases hf : c.entries.find? (fun e => e.1 = k) with
  | none => rw [hf] at h; exact absurd h (by simp)
  | some e =>
    rw [hf] at h
    dsimp only at h
    by_cases hlt : now < e.2.2 + c.ttl
    · rw [if_pos hlt] at h
      have hm := List.mem_of_find?_eq_some hf
      have hp := List.find?_some hf
      have hk : e.1 = k := of_decide_eq_true hp
      have hv : e.2.1 = v := Option.some.inj h
      refine ⟨e.2.2, ?_, hlt⟩
      have he : (k, v, e.2.2) = e := by
        obtain ⟨a, b, t⟩ := e
        simp only at hk hv
        rw [← hk, ← hv]
      rw [he]
      exact hm
    · rw [if_neg hlt] at h; exact absurd h (by simp)

theorem mem_cacheInsert {κ α : Type} [DecidableEq κ] {x : κ × α × ℚ}
    {c : TTLCacheM κ α} {now : ℚ} {k : κ} {v : α}
    (h : x ∈ (cacheInsert c now k v).entries) :
    x = (k, v, now) ∨ x ∈ c.entries := by
  simp only [cacheInsert] at h
  rcases List.mem_cons.mp h with h | h
  · exact Or.inl h
  · right
    split at h
    · exact List.mem_of_mem_filter (List.mem_of_mem_filter (List.dropLast_subset _ h))
    · exact List.mem_of_mem_filter (List.mem_of_mem_filter h)

theorem mem_cacheTouch {κ α : Type} [DecidableEq κ] {x : κ × α × ℚ}
    {c : TTLCacheM κ α} {now : ℚ} {k : κ}
    (h : x ∈ (cacheTouch c now k).entries) : x ∈ c.entries := by
  unfold cacheTouch at h
  cases hf : c.entries.find? (fun e => e.1 = k) with
  | none => rw [hf] at h; exact h
  | some e =>
    rw [hf] at h
    dsimp only at h
    by_cases hlt : now < e.2.2 + c.ttl
    · rw [if_pos hlt] at h
      dsimp only at h
      rcases List.mem_cons.mp h with h | h
      · exact h ▸ List.mem_of_find?_eq_some hf
      · exact List.mem_of_mem_filter h
    · rw [if_neg hlt] at h
      exact h

theorem cacheInsert_ttl {κ α : Type} [DecidableEq κ] (c : TTLCacheM κ α)
    (now : ℚ) (k : κ) (v : α) : (cacheInsert c now k v).ttl = c.ttl := rfl

theorem cacheInsert_maxsize {κ α : Type} [DecidableEq κ] (c : TTLCacheM κ α)
    (now : ℚ) (k : κ) (v : α) : (cacheInsert c now k v).maxsize = c.maxsize := rfl

theorem cacheTouch_ttl {κ α : Type} [DecidableEq κ] (c : TTLCacheM κ α)
    (now : ℚ) (k : κ) : (cacheTouch c now k).ttl = c.ttl := by
  unfold cacheTouch
  cases c.entries.find? (fun e => e.1 = k) <;> simp only
  split <;> rfl

theorem cacheTouch_maxsize {κ α : Type} [DecidableEq κ] (c : TTLCacheM κ α)
    (now : ℚ) (k : κ) : (cacheTouch c now k).maxsize = c.maxsize := by
  unfold cacheTouch
  cases c.entries.find? (fun e => e.1 = k) <;> simp only
  split <;> rfl

/-- Reading back the key just written: the fresh entry sits at the
most-recently-used end, so a later lookup of the same key finds it,
and sees it exactly while it is unexpired. -/
theorem cacheLookup_cacheInsert_self {κ α : Type} [DecidableEq κ]
    (c : TTLCacheM κ α) (now t : ℚ) (k : κ) (v : α) :
    cacheLookup (cacheInsert c now k v) t k =
      if t < now + c.ttl then some v else none := by
  simp [cacheLookup, cacheInsert]

/-! ## C9: /directions with a missing coordinate -/

/-- C9: for every `/directions` request in which any of the four
coordinate parameters is missing or unparsable (Flask's
`args.get(..., type=float)` yields `None` in both cases), the handler
returns HTTP 400 with an error payload and issues no outbound request to
the routing provider. -/
theorem get_directions_missing_param
    (start_lat start_lon end_lat end_lon : Option ℚ)
    (provider : Option OsrmResponse)
    (h : start_lat = none ∨ start_lon = none ∨ end_lat = none ∨ end_lon = none) :
    get_directions start_lat start_lon end_lat end_lon provider =
      { payload := .err "Faltan parámetros de ubicación", status := 400,
        networkCalled := false } := by
  unfold get_directions
  rw [if_pos h]

/-- Witness for C9 at a concrete request omitting `end_lon`. -/
theorem get_directions_missing_param_witness :
    get_directions (some 1) (some 2) (some 3) none
        (some { code := "Ok", routes := [] }) =
      { payload := .err "Faltan parámetros de ubicación", status := 400,
        networkCalled := false } :=
  get_directions_missing_param _ _ _ _ _ (Or.inr (Or.inr (Or.inr rfl)))

/-! ## C3: invalid categories -/

/-- Every memoization-cache entry whose key is an invalid category holds
the empty list: `fetch_pois` only ever returns (and hence the decorator
only ever stores) `[]` for such a key. -/
def MemoInv (s : SysState) : Prop :=
  ∀ k v t, (k, v, t) ∈ s.memo.entries → k ∉ validCategories → v = []

theorem memoInv_init : MemoInv initState := by
  intro k v t h
  simp [initState] at h

theorem memoInv_step (s : SysState) (now : ℚ) (cat : String)
    (prov : Option OverpassData) (rng : ℕ → ℚ) (hs : MemoInv s) :
    MemoInv (fetch_pois s now cat prov rng).state := by
  intro k v t hmem hk
  unfold fetch_pois at hmem
  cases hm : cacheLookup s.memo now cat with
  | some w =>
    rw [hm] at hmem
    simp only at hmem
    exact hs k v t (mem_cacheTouch hmem) hk
  | none =>
    rw [hm] at hmem
    by_cases hv : cat ∈ validCategories
    · rw [if_pos hv] at hmem
      cases hp : cacheLookup s.poi_cache now ("pois_" ++ cat) with
      | some w =>
        rw [hp] at hmem
        simp only at hmem
        rcases mem_cacheInsert hmem with h | h
        · injection h with h1 h2
          subst h1
          exact absurd hv hk
        · exact hs k v t h hk
      | none =>
        rw [hp] at hmem
        cases prov with
        | none =>
          simp only at hmem
          rcases mem_cacheInsert hmem with h | h
          · injection h with h1 h2
            injection h2 with h3 h4
          · exact hs k v t h hk
        | some data =>
          simp only at hmem
          rcases mem_cacheInsert hmem with h | h
          · injection h with h1 h2
            subst h1
            exact absurd hv hk
          · exact hs k v t h hk
    · rw [if_neg hv] at hmem
      simp only at hmem
      rcases mem_cacheInsert hmem with h | h
      · injection h with h1 h2
        injection h2 with h3 h4
      · exact hs k v t h hk

theorem memoInv_runCalls (trace : List Call) : MemoInv (runCalls initState trace) := by
  suffices h : ∀ (trace : List Call) (s : SysState), MemoInv s → MemoInv (runCalls s trace) from
    h trace initState memoInv_init
  intro trace
  induction trace with
  | nil => intro s hs; exact hs
  | cons c cs ih =>
    intro s hs
    exact ih _ (memoInv_step s c.now c.category c.provider c.rng hs)

/-- C3: for every category string not in {hotel, restaurant, attraction},
`fetch_pois` returns an empty list without issuing any network request
(and without raising an error — the modelled call is total), from any
state the system can reach by previous `fetch_pois` calls. -/
theorem fetch_pois_invalid_category (trace : List Call) (now : ℚ)
    (cat : String) (prov : Option OverpassData) (rng : ℕ → ℚ)
    (h : cat ∉ validCategories) :
    (fetch_pois (runCalls initState trace) now cat prov rng).result = [] ∧
    (fetch_pois (runCalls initState trace) now cat prov rng).networkCalled = false := by
  have hinv := memoInv_runCalls trace
  unfold fetch_pois
  cases hm : cacheLookup (runCalls initState trace).memo now cat with
  | some w =>
    obtain ⟨t, hmem, _⟩ := cacheLookup_some hm
    have : w = [] := hinv cat w t hmem h
    simp [this]
  | none => simp [if_neg h]

/-- Witness for C3: a concrete invalid category on the fresh state. -/
theorem fetch_pois_invalid_category_witness :
    (fetch_pois (runCalls initState []) 0 "museo" none (fun _ => 4)).result = [] ∧
    (fetch_pois (runCalls initState []) 0 "museo" none (fun _ => 4)).networkCalled = false :=
  fetch_pois_invalid_category [] 0 "museo" none (fun _ => 4) (by decide)

/-! ## C4: two calls within the POI cache TTL -/

/-- A cold successful call: both caches miss, the provider answers.
The call returns the freshly built list, stores it in both caches, and
reports the network request. -/
theorem fetch_pois_cold_success (s : SysState) (now : ℚ) (cat : String)
    (data : OverpassData) (rng : ℕ → ℚ)
    (hv : cat ∈ validCategories)
    (hm : cacheLookup s.memo now cat = none)
    (hp : cacheLookup s.poi_cache now ("pois_" ++ cat) = none) :
    fetch_pois s now cat (some data) rng =
      { result := buildPois cat data rng
        state := { s with
          poi_cache := cacheInsert s.poi_cache now ("pois_" ++ cat)
            (buildPois cat data rng)
          memo := cacheInsert s.memo now cat (buildPois cat data rng) }
        networkCalled := true } := by
  unfold fetch_pois
  rw [hm]
  dsimp only
  rw [if_pos hv, hp]

/-- C4 (amended): for every valid category, if the first call is a cold
call whose provider request succeeds, then any second call within the
24-hour POI cache TTL returns the identical list and issues no network
request (within 3600 s it is served by the memoization cache, afterwards
by the POI cache tier, in which the first call stored the list). -/
theorem fetch_pois_ttl_idempotent (s : SysState) (now1 now2 : ℚ)
    (cat : String) (data : OverpassData) (rng1 rng2 : ℕ → ℚ)
    (prov2 : Option OverpassData)
    (hmt : s.memo.ttl = 3600) (hpt : s.poi_cache.ttl = 86400)
    (hv : cat ∈ validCategories)
    (hm : cacheLookup s.memo now1 cat = none)
    (hp : cacheLookup s.poi_cache now1 ("pois_" ++ cat) = none)
    (httl : now2 < now1 + 86400) :
    (fetch_pois (fetch_pois s now1 cat (some data) rng1).state
        now2 cat prov2 rng2).result =
      (fetch_pois s now1 cat (some data) rng1).result ∧
    (fetch_pois (fetch_pois s now1 cat (some data) rng1).state
        now2 cat prov2 rng2).networkCalled = false := by
  rw [fetch_pois_cold_success s now1 cat data rng1 hv hm hp]
  unfold fetch_pois
  dsimp only
  rw [cacheLookup_cacheInsert_self, hmt]
  by_cases h3 : now2 < now1 + 3600
  · rw [if_pos h3]
    exact ⟨rfl, rfl⟩
  · rw [if_neg h3]
    dsimp only
    rw [if_pos hv]
    rw [cacheLookup_cacheInsert_self, hpt, if_pos httl]
    exact ⟨rfl, rfl⟩

/-- A one-node provider response used in concrete scenarios. -/
def cexElement : Element :=
  { type := some "node", id := some 1, lat := some 1, lon := some 2,
    nodes := none, tags := [("name", "H")] }

/-- A provider response with a single named node. -/
def cexData : OverpassData := { elements := [cexElement] }

/-- Counterexample to C4 as stated: a first call at t = 0 whose provider
request fails returns `[]`; a second call at t = 3600 — well within the
24-hour POI cache TTL — issues a second network request and (the
provider now answering) returns a different, non-empty list. -/
theorem fetch_pois_ttl_cex :
    (fetch_pois (fetch_pois initState 0 "hotel" none (fun _ => 4)).state
        3600 "hotel" (some cexData) (fun _ => 4)).networkCalled = true ∧
    (fetch_pois (fetch_pois initState 0 "hotel" none (fun _ => 4)).state
        3600 "hotel" (some cexData) (fun _ => 4)).result ≠
      (fetch_pois initState 0 "hotel" none (fun _ => 4)).result ∧
    (3600 : ℚ) < 0 + 86400 := by
  have h1 : fetch_pois initState 0 "hotel" none (fun _ => 4) =
      { result := []
        state :=
          { memo := { maxsize := 100, ttl := 3600,
                      entries := [("hotel", [], 0)] }
            poi_cache := { maxsize := 100, ttl := 86400, entries := [] } }
        networkCalled := true } := by
    unfold fetch_pois
    rfl
  rw [h1]
  have hlk : cacheLookup
      (TTLCacheM.mk (κ := String) (α := List POI) 100 3600 [("hotel", [], 0)])
      3600 "hotel" = none := by
    unfold cacheLookup
    rw [List.find?_cons_of_pos _ (by decide)]
    dsimp only
    rw [if_neg (by norm_num)]
  unfold fetch_pois
  dsimp only
  rw [hlk]
  dsimp only
  rw [if_pos (by decide : "hotel" ∈ validCategories)]
  have hpk : cacheLookup
      (TTLCacheM.mk (κ := String) (α := List POI) 100 86400 [])
      3600 ("pois_" ++ "hotel") = none := rfl
  rw [hpk]
  dsimp only
  refine ⟨rfl, ?_, by norm_num⟩
  simp [buildPois, cexData, cexElement, processElems, resolveCoord,
    attachRatings, getD]

/-! ## C10: a failed fetch is memoized for 3600 s -/

/-- While the memoization cache holds a fresh entry `(cat, [], t0)` at
its most-recently-used end, every `fetch_pois cat` call earlier than
`t0 + 3600` is a memo hit: it returns `[]`, issues no network request,
and leaves the entry in place. -/
theorem runSameCat_hits (cat : String) (t0 : ℚ)
    (calls : List (ℚ × Option OverpassData × (ℕ → ℚ))) :
    ∀ (s : SysState), s.memo.ttl = 3600 →
      (∃ rest, s.memo.entries = (cat, [], t0) :: rest) →
      (∀ c ∈ calls, t0 ≤ c.1 ∧ c.1 < t0 + 3600) →
      runSameCat cat s calls = calls.map (fun _ => ([], false)) := by
  induction calls with
  | nil => intro s _ _ _; rfl
  | cons c cs ih =>
    intro s hmt ⟨rest, hre⟩ htimes
    have hc := htimes c (List.mem_cons_self c cs)
    have hlk : cacheLookup s.memo c.1 cat = some [] := by
      unfold cacheLookup
      rw [hre, List.find?_cons_of_pos _ (by simp)]
      dsimp only
      rw [hmt]
      rw [if_pos hc.2]
    have hstep : fetch_pois s c.1 cat c.2.1 c.2.2 =
        { result := [], state := { s with memo := cacheTouch s.memo c.1 cat },
          networkCalled := false } := by
      unfold fetch_pois
      rw [hlk]
    have htouch : (cacheTouch s.memo c.1 cat).entries =
        (cat, ([] : List POI), t0) :: s.memo.entries.filter (fun x => ¬ x.1 = cat) := by
      unfold cacheTouch
      rw [hre, List.find?_cons_of_pos _ (by simp)]
      dsimp only
      rw [hmt, if_pos hc.2]
    show runSameCat cat s (c :: cs) = _
    unfold runSameCat
    rw [hstep]
    dsimp only
    rw [ih _ (by rw [cacheTouch_ttl]; exact hmt) ⟨_, htouch⟩
      (fun d hd => htimes d (List.mem_cons_of_mem c hd))]
    rfl

/-- C10: after a cold `fetch_pois(category)` call whose provider request
fails, the call returns `[]` (which is never stored in the POI cache
tier — `poi_cache` is unchanged) but IS stored by the memoization
decorator, so every subsequent call for the same category within the
next 3600 seconds returns the same empty list without contacting the
provider. -/
theorem fetch_pois_failure_cached (s : SysState) (t0 : ℚ) (cat : String)
    (rng : ℕ → ℚ) (calls : List (ℚ × Option OverpassData × (ℕ → ℚ)))
    (hmt : s.memo.ttl = 3600)
    (hv : cat ∈ validCategories)
    (hm : cacheLookup s.memo t0 cat = none)
    (hp : cacheLookup s.poi_cache t0 ("pois_" ++ cat) = none)
    (htimes : ∀ c ∈ calls, t0 ≤ c.1 ∧ c.1 < t0 + 3600) :
    (fetch_pois s t0 cat none rng).result = [] ∧
    (fetch_pois s t0 cat none rng).networkCalled = true ∧
    (fetch_pois s t0 cat none rng).state.poi_cache = s.poi_cache ∧
    runSameCat cat (fetch_pois s t0 cat none rng).state calls =
      calls.map (fun _ => ([], false)) := by
  have hc0 : fetch_pois s t0 cat none rng =
      { result := [], state := { s with memo := cacheInsert s.memo t0 cat [] },
        networkCalled := true } := by
    unfold fetch_pois
    rw [hm]
    dsimp only
    rw [if_pos hv, hp]
  rw [hc0]
  refine ⟨rfl, rfl, rfl, ?_⟩
  exact runSameCat_hits cat t0 calls _ (by rw [cacheInsert_ttl]; exact hmt)
    ⟨_, rfl⟩ htimes

/-- Concrete call sequence for the C10 witness: two follow-up calls, one
with a provider that would now answer, one with another failure. -/
def wcalls : List (ℚ × Option OverpassData × (ℕ → ℚ)) :=
  [(1, some cexData, fun _ => 4), (100, none, fun _ => 4)]

/-- Witness for C10: a concrete failed call on the fresh state at t = 0
followed by two calls at t = 1 and t = 100. -/
theorem fetch_pois_failure_cached_witness :
    (fetch_pois initState 0 "hotel" none (fun _ => 4)).result = [] ∧
    (fetch_pois initState 0 "hotel" none (fun _ => 4)).networkCalled = true ∧
    (fetch_pois initState 0 "hotel" none (fun _ => 4)).state.poi_cache =
      initState.poi_cache ∧
    runSameCat "hotel" (fetch_pois initState 0 "hotel" none (fun _ => 4)).state
      wcalls = wcalls.map (fun _ => ([], false)) :=
  fetch_pois_failure_cached initState 0 "hotel" (fun _ => 4) wcalls rfl
    (by decide) rfl rfl
    (by
      intro c hc
      simp only [wcalls, List.mem_cons, List.not_mem_nil, or_false] at hc
      rcases hc with h | h <;> rw [h] <;> exact ⟨by norm_num, by norm_num⟩)

/-! ## C1: names and ratings of fetched POIs -/

theorem round_mono_le {x y : ℚ} (h : x ≤ y) : round x ≤ round y := by
  rw [round_eq, round_eq]
  exact Int.floor_mono (by linarith)

/-- Rounding to one decimal keeps a value of [3.5, 5] inside [3.5, 5]:
both endpoints are multiples of 1/10. -/
theorem round1_bounds (x : ℚ) (h1 : 7 / 2 ≤ x) (h2 : x ≤ 5) :
    7 / 2 ≤ round1 x ∧ round1 x ≤ 5 := by
  have hlow : (35 : ℤ) ≤ round (10 * x) := by
    have h := round_mono_le (show ((35 : ℤ) : ℚ) ≤ 10 * x by push_cast; linarith)
    rwa [round_intCast] at h
  have hhigh : round (10 * x) ≤ (50 : ℤ) := by
    have h := round_mono_le (show 10 * x ≤ ((50 : ℤ) : ℚ) by push_cast; linarith)
    rwa [round_intCast] at h
  have hlow2 : ((35 : ℤ) : ℚ) ≤ ((round (10 * x) : ℤ) : ℚ) := by exact_mod_cast hlow
  have hhigh2 : ((round (10 * x) : ℤ) : ℚ) ≤ ((50 : ℤ) : ℚ) := by exact_mod_cast hhigh
  unfold round1
  push_cast at hlow2 hhigh2
  constructor
  · linarith
  · linarith

/-- Every member of `attachRatings` is a completed base record with a
rounded rating sample. -/
theorem mem_attachRatings (cat : String) (rng : ℕ → ℚ) :
    ∀ (i : ℕ) (bs : List POIBase) (p : POI), p ∈ attachRatings cat rng i bs →
      ∃ j b, b ∈ bs ∧ p = mkPOI cat b (round1 (rng j)) := by
  intro i bs
  induction bs generalizing i with
  | nil => intro p hp; simp [attachRatings] at hp
  | cons b bs ih =>
    intro p hp
    rcases List.mem_cons.mp hp with h | h
    · exact ⟨i, b, List.mem_cons_self b bs, h⟩
    · obtain ⟨j, b2, hb2, hpe⟩ := ih (i + 1) p h
      exact ⟨j, b2, List.mem_cons_of_mem b hb2, hpe⟩

/-- Every base record retained by the element loop has a name different
from the `'Sin nombre'` placeholder (the loop `continue`s on that
value). -/
theorem name_processElems (elements : List Element) :
    ∀ (es : List Element) (last : Option (ℚ × ℚ)) (b : POIBase),
      b ∈ processElems elements last es → b.name ≠ "Sin nombre" := by
  intro es
  induction es with
  | nil => intro last b hb; simp [processElems] at hb
  | cons e rest ih =>
    intro last b hb
    unfold processElems at hb
    cases hc : resolveCoord elements last e with
    | none => rw [hc] at hb; exact ih last b hb
    | some c =>
      rw [hc] at hb
      dsimp only at hb
      by_cases hn : getD e.tags "name" "Sin nombre" = "Sin nombre"
      · rw [if_pos hn] at hb
        exact ih (some c) b hb
      · rw [if_neg hn] at hb
        rcases List.mem_cons.mp hb with h | h
        · rw [h]
          exact hn
        · exact ih (some c) b h

/-- C1 (amended): for every category and provider response, and every
rating stream inside [3.5, 5] (the contract of
`random.uniform(3.5, 5.0)`), every POI built by `fetch_pois` has a name
different from the placeholder `'Sin nombre'` — elements without a name
tag are discarded — and a rating in [3.5, 5.0].  (A provider-supplied
name tag holding the empty string is retained, so non-emptiness of the
name is NOT guaranteed; see the counterexample.) -/
theorem fetch_pois_name_rating (cat : String) (data : OverpassData)
    (rng : ℕ → ℚ) (hr : ∀ i, 7 / 2 ≤ rng i ∧ rng i ≤ 5) :
    ∀ p ∈ buildPois cat data rng,
      p.name ≠ "Sin nombre" ∧ 7 / 2 ≤ p.rating ∧ p.rating ≤ 5 := by
  intro p hp
  unfold buildPois at hp
  obtain ⟨j, b, hb, hpe⟩ := mem_attachRatings cat rng 0 _ p hp
  subst hpe
  refine ⟨name_processElems data.elements data.elements none b hb, ?_⟩
  exact round1_bounds (rng j) (hr j).1 (hr j).2

/-- The POI built from `cexData`. -/
def wPOI : POI := mkPOI "hotel" (mkBase cexElement (1, 2)) (round1 4)

/-- Witness for C1 at the one-node response `cexData` with the constant
rating stream 4. -/
theorem fetch_pois_name_rating_witness :
    wPOI.name ≠ "Sin nombre" ∧ 7 / 2 ≤ wPOI.rating ∧ wPOI.rating ≤ 5 :=
  fetch_pois_name_rating "hotel" cexData (fun _ => 4)
    (fun _ => ⟨by norm_num, by norm_num⟩) wPOI
    (by rw [show buildPois "hotel" cexData (fun _ => 4) = [wPOI] from rfl]
        exact List.mem_singleton.mpr rfl)

/-- A node element whose name tag is present but empty. -/
def cexEmptyNameElement : Element :=
  { type := some "node", id := some 1, lat := some 1, lon := some 2,
    nodes := none, tags := [("name", "")] }

/-- A provider response with a single empty-named node. -/
def cexEmptyNameData : OverpassData := { elements := [cexEmptyNameElement] }

/-- Counterexample to C1 as stated: with a provider element whose name
tag is the empty string (and a rating sample well inside [3.5, 5]),
`fetch_pois` returns a POI whose name is empty.  Only the exact
placeholder `'Sin nombre'` is filtered, not emptiness. -/
theorem fetch_pois_empty_name_cex :
    ((fetch_pois initState 0 "hotel" (some cexEmptyNameData)
        (fun _ => 4)).result).map POI.name = [""] ∧
    (7 : ℚ) / 2 ≤ 4 ∧ (4 : ℚ) ≤ 5 :=
  ⟨rfl, by norm_num, by norm_num⟩

/-! ## C2: no deduplication -/

/-- C2 (amended): `fetch_pois` performs no deduplication — each retained
raw element contributes exactly one record, so a duplicated element in
the provider response yields a duplicated record in the returned list.
Shown for a named node element duplicated once, with a constant rating
stream. -/
theorem fetch_pois_no_dedup (cat : String) (e : Element) (la lo c : ℚ)
    (ht : e.type = some "node") (hla : e.lat = some la)
    (hlo : e.lon = some lo)
    (hn : getD e.tags "name" "Sin nombre" ≠ "Sin nombre") :
    buildPois cat { elements := [e, e] } (fun _ => c) =
      [mkPOI cat (mkBase e (la, lo)) (round1 c),
       mkPOI cat (mkBase e (la, lo)) (round1 c)] := by
  have h1 : ∀ last, resolveCoord [e, e] last e = some (la, lo) := by
    intro last
    simp [resolveCoord, ht, hla, hlo]
  have h3 : processElems [e, e] none [e, e] =
      [mkBase e (la, lo), mkBase e (la, lo)] := by
    simp only [processElems, h1, if_neg hn]
  unfold buildPois
  rw [h3]
  rfl

/-- Counterexample to C2 as stated: a provider response in which the
same named node element appears twice makes `fetch_pois` return a list
with a duplicate record (`Nodup` fails). -/
theorem fetch_pois_dup_cex :
    (fetch_pois initState 0 "hotel" (some { elements := [cexElement, cexElement] })
        (fun _ => 4)).result = [wPOI, wPOI] ∧
    ¬ (fetch_pois initState 0 "hotel" (some { elements := [cexElement, cexElement] })
        (fun _ => 4)).result.Nodup := by
  refine ⟨rfl, fun hnd => ?_⟩
  rw [show (fetch_pois initState 0 "hotel"
      (some { elements := [cexElement, cexElement] }) (fun _ => 4)).result =
      [wPOI, wPOI] from rfl] at hnd
  exact (List.nodup_cons.mp hnd).1 (List.mem_singleton.mpr rfl)

/-- Witness for C2 (amended) at the concrete duplicated node. -/
theorem fetch_pois_no_dedup_witness :
    buildPois "hotel" { elements := [cexElement, cexElement] } (fun _ => 4) =
      [mkPOI "hotel" (mkBase cexElement (1, 2)) (round1 4),
       mkPOI "hotel" (mkBase cexElement (1, 2)) (round1 4)] :=
  fetch_pois_no_dedup "hotel" cexElement 1 2 4 rfl rfl rfl (by decide)

/-! ## C7: way elements -/

/-- C7: a way element's coordinate is the arithmetic mean of the
latitudes and longitudes of its resolved constituent node points; if no
constituent points resolve, the element is discarded (it contributes
nothing to the result). -/
theorem fetch_pois_way_mean (elements : List Element)
    (last : Option (ℚ × ℚ)) (e : Element) (ids : List Int)
    (lats lons : List ℚ)
    (ht : e.type = some "way") (hn : e.nodes = some ids)
    (hlats : collectLats elements ids = some lats)
    (hlons : collectLons elements ids = some lons) :
    (lats ≠ [] → lons ≠ [] →
      resolveCoord elements last e = some (listMean lats, listMean lons)) ∧
    (lats = [] →
      resolveCoord elements last e = none ∧
      processElems elements last [e] = []) := by
  have hway : resolveCoord elements last e =
      (if lats ≠ [] ∧ lons ≠ [] then some (listMean lats, listMean lons)
       else none) := by
    simp [resolveCoord, ht, hn, hlats, hlons]
  constructor
  · intro hl1 hl2
    rw [hway, if_pos ⟨hl1, hl2⟩]
  · intro hl1
    have hrc : resolveCoord elements last e = none := by
      rw [hway, if_neg (by simp [hl1])]
    exact ⟨hrc, by simp [processElems, hrc]⟩

/-- Constituent nodes and a way referring to them, for the C7 witness. -/
def wayElement : Element :=
  { type := some "way", id := some 5, lat := none, lon := none,
    nodes := some [10, 11], tags := [("name", "W")] }

/-- First constituent node of `wayElement`. -/
def nodeA : Element :=
  { type := some "node", id := some 10, lat := some 2, lon := some 4,
    nodes := none, tags := [] }

/-- Second constituent node of `wayElement`. -/
def nodeB : Element :=
  { type := some "node", id := some 11, lat := some 4, lon := some 8,
    nodes := none, tags := [] }

/-- The element list of the C7 witness response. -/
def wayElements : List Element := [wayElement, nodeA, nodeB]

/-- Witness for C7: the concrete way resolves to the mean of its two
constituent nodes. -/
theorem fetch_pois_way_mean_witness :
    resolveCoord wayElements none wayElement =
      some (listMean [2, 4], listMean [4, 8]) :=
  (fetch_pois_way_mean wayElements none wayElement [10, 11] [2, 4] [4, 8]
    rfl rfl rfl rfl).1 (by simp) (by simp)

/-- Witness for C4 (amended): a concrete cold successful call at t = 0
followed by a call at t = 7200 (after the memoization TTL, within the
POI cache TTL). -/
theorem fetch_pois_ttl_idempotent_witness :
    (fetch_pois (fetch_pois initState 0 "hotel" (some cexData) (fun _ => 4)).state
        7200 "hotel" none (fun _ => 4)).result =
      (fetch_pois initState 0 "hotel" (some cexData) (fun _ => 4)).result ∧
    (fetch_pois (fetch_pois initState 0 "hotel" (some cexData) (fun _ => 4)).state
        7200 "hotel" none (fun _ => 4)).networkCalled = false :=
  fetch_pois_ttl_idempotent initState 0 7200 "hotel" cexData (fun _ => 4)
    (fun _ => 4) none rfl rfl (by decide) rfl rfl (by norm_num)

/-! ## C8: the fetch_weather cache key -/

/-- C8 (amended): `fetch_weather` memoizes per EXACT argument signature:
after a cold call at `(lat, lon)`, any call with the identical pair
within the 300 s TTL returns the first call's (cached) result — be it a
snapshot or the `None` of a failure — and issues no network request. -/
theorem fetch_weather_exact_memo (s : TTLCacheM (ℚ × ℚ) (Option WeatherSnapshot))
    (now1 now2 lat lon : ℚ) (k1 k2 : Bool) (p1 p2 : Option WeatherSnapshot)
    (hst : s.ttl = 300)
    (hm : cacheLookup s now1 (lat, lon) = none)
    (httl : now2 < now1 + 300) :
    (fetch_weather (fetch_weather s now1 lat lon k1 p1).state
        now2 lat lon k2 p2).result =
      (fetch_weather s now1 lat lon k1 p1).result ∧
    (fetch_weather (fetch_weather s now1 lat lon k1 p1).state
        now2 lat lon k2 p2).networkCalled = false := by
  have h1 : fetch_weather s now1 lat lon k1 p1 =
      { result := if k1 then p1 else none
        state := cacheInsert s now1 (lat, lon) (if k1 then p1 else none)
        networkCalled := k1 } := by
    unfold fetch_weather
    rw [hm]
  rw [h1]
  unfold fetch_weather
  dsimp only
  rw [cacheLookup_cacheInsert_self, hst, if_pos httl]
  exact ⟨rfl, rfl⟩

/-- The "rounded argument signature" named by the specification,
rounding each coordinate to two decimal places (the refutation below
works the same for any fixed precision up to 2: the two coordinates it
uses agree once rounded, yet are distinct). -/
def roundedSignature (lat lon : ℚ) : ℚ × ℚ := (round2 lat, round2 lon)

/-- A first concrete snapshot. -/
def wsnapA : WeatherSnapshot :=
  { description := "Despejado", temperature := 10, feels_like := 9,
    humidity := 40, wind_speed := 18, icon := "01d" }

/-- A second, different concrete snapshot. -/
def wsnapB : WeatherSnapshot :=
  { description := "Lluvia", temperature := 8, feels_like := 7,
    humidity := 80, wind_speed := 10, icon := "09d" }

/-- Counterexample to C8 as stated: the coordinates (0, 0) and
(1/1000, 0) have the same rounded signature, yet a second call 100 s
after the first (well within the 300 s TTL) misses the cache — the key
is the exact argument pair, not a rounded one — so it issues a second
network request and can return a different snapshot. -/
theorem fetch_weather_rounded_cex :
    roundedSignature 0 0 = roundedSignature (1 / 1000) 0 ∧
    (100 : ℚ) < 0 + 300 ∧
    (fetch_weather (fetch_weather weatherCacheInit 0 0 0 true (some wsnapA)).state
        100 (1 / 1000) 0 true (some wsnapB)).networkCalled = true ∧
    (fetch_weather (fetch_weather weatherCacheInit 0 0 0 true (some wsnapA)).state
        100 (1 / 1000) 0 true (some wsnapB)).result ≠
      (fetch_weather weatherCacheInit 0 0 0 true (some wsnapA)).result := by
  have hsig : roundedSignature 0 0 = roundedSignature (1 / 1000) 0 := by
    have hr : round ((1 : ℚ) / 10) = 0 := by
      rw [round_eq]
      have h0 : ⌊(1 : ℚ) / 10 + 1 / 2⌋ = 0 := by
        rw [Int.floor_eq_iff]
        norm_num
      exact h0
    unfold roundedSignature round2
    rw [show (100 : ℚ) * (1 / 1000) = 1 / 10 by norm_num, hr]
    norm_num
  have h1 : fetch_weather weatherCacheInit 0 0 0 true (some wsnapA) =
      { result := some wsnapA
        state := { maxsize := 100, ttl := 300,
                   entries := [((0, 0), some wsnapA, 0)] }
        networkCalled := true } := by
    unfold fetch_weather
    rfl
  rw [h1]
  have hlk : cacheLookup
      (TTLCacheM.mk (κ := ℚ × ℚ) (α := Option WeatherSnapshot) 100 300
        [((0, 0), some wsnapA, 0)])
      100 (1 / 1000, 0) = none := by
    unfold cacheLookup
    rw [List.find?_cons_of_neg]
    · rfl
    · simp only [decide_eq_true_eq]
      intro h
      injection h with ha hb
      norm_num at ha
  unfold fetch_weather
  dsimp only
  rw [hlk]
  dsimp only
  refine ⟨hsig, by norm_num, rfl, ?_⟩
  intro h
  have : wsnapB = wsnapA := Option.some.inj h
  simp [wsnapA, wsnapB] at this

/-- Witness for C8 (amended): two identical calls at (0, 0), 100 s
apart. -/
theorem fetch_weather_exact_memo_witness :
    (fetch_weather (fetch_weather weatherCacheInit 0 0 0 true (some wsnapA)).state
        100 0 0 true (some wsnapB)).result =
      (fetch_weather weatherCacheInit 0 0 0 true (some wsnapA)).result ∧
    (fetch_weather (fetch_weather weatherCacheInit 0 0 0 true (some wsnapA)).state
        100 0 0 true (some wsnapB)).networkCalled = false :=
  fetch_weather_exact_memo weatherCacheInit 0 100 0 0 true true
    (some wsnapA) (some wsnapB) rfl rfl (by norm_num)

/-! ## C5: the /pois ranking pipeline -/

/-- Inserting into a list commutes with filtering on a distance class:
an element is placed before exactly the equal-distance elements it
preceded, so each distance class keeps its order. -/
theorem filter_orderedInsert (d : ℚ) (a : RankedRoute) (l : List RankedRoute) :
    (List.orderedInsert distLE a l).filter (fun x => decide (x.distance = d)) =
      if a.distance = d then
        a :: l.filter (fun x => decide (x.distance = d))
      else l.filter (fun x => decide (x.distance = d)) := by
  induction l with
  | nil =>
    by_cases h : a.distance = d <;> simp [List.orderedInsert, h]
  | cons b t ih =>
    have hoi : List.orderedInsert distLE a (b :: t) =
        if distLE a b then a :: b :: t
        else b :: List.orderedInsert distLE a t := rfl
    by_cases hab : distLE a b
    · rw [hoi, if_pos hab]
      by_cases h : a.distance = d <;> simp [List.filter_cons, h]
    · have hba : b.distance < a.distance := lt_of_not_le hab
      rw [hoi, if_neg hab]
      rw [List.filter_cons, List.filter_cons, ih]
      by_cases h : a.distance = d
      · have hbd : ¬ (b.distance = d) := by
          intro hbd
          rw [← h] at hbd
          rw [hbd] at hba
          exact lt_irrefl _ hba
        simp [h, hbd]
      · simp [h]

/-- The stable insertion sort preserves each distance class of the
input: ties keep their relative order. -/
theorem filter_insertionSort (d : ℚ) (l : List RankedRoute) :
    (List.insertionSort distLE l).filter (fun x => decide (x.distance = d)) =
      l.filter (fun x => decide (x.distance = d)) := by
  induction l with
  | nil => rfl
  | cons a t ih =>
    rw [List.insertionSort, filter_orderedInsert, ih, List.filter_cons]
    by_cases h : a.distance = d <;> simp [h]

/-- C5: the `/pois` pipeline — filter by rating threshold, then
`calculate_routes` — returns a sequence that (1) contains only POIs with
rating ≥ r, (2) is sorted non-decreasing by distance, and (3) keeps, in
every distance class, the original relative order of the (filtered,
order-preserving) input list: the sort is stable. -/
theorem get_pois_ranked (dist : ℚ × ℚ → ℚ × ℚ → ℚ) (lat lon r : ℚ)
    (pois : List POI) :
    (∀ x ∈ get_pois dist lat lon r pois, r ≤ x.poi.rating) ∧
    List.Pairwise distLE (get_pois dist lat lon r pois) ∧
    (∀ d : ℚ,
      (get_pois dist lat lon r pois).filter (fun x => decide (x.distance = d)) =
      ((pois.filter (fun p => decide (r ≤ p.rating))).map
        (fun p => { poi := p,
                    distance := round2 (dist (lat, lon) p.location) })).filter
        (fun x => decide (x.distance = d))) := by
  refine ⟨?_, ?_, ?_⟩
  · intro x hx
    unfold get_pois calculate_routes at hx
    have hx2 := (List.perm_insertionSort distLE _).mem_iff.mp hx
    obtain ⟨p, hp, hxp⟩ := List.mem_map.mp hx2
    have hrat := (List.mem_filter.mp hp).2
    rw [← hxp]
    exact of_decide_eq_true hrat
  · unfold get_pois calculate_routes
    exact List.sorted_insertionSort distLE _
  · intro d
    unfold get_pois calculate_routes
    exact filter_insertionSort d _

/-! ## C6: cache capacity and LRU eviction -/

/-- One operation against a cache tier: a read (`cache[key]` /
`key in cache`) or a write (`cache[key] = value`). -/
inductive CacheOp (κ α : Type) where
  | get (now : ℚ) (k : κ)
  | set (now : ℚ) (k : κ) (v : α)

/-- Apply one operation to a cache tier. -/
def applyOp {κ α : Type} [DecidableEq κ] (c : TTLCacheM κ α) :
    CacheOp κ α → TTLCacheM κ α
  | .get now k => cacheTouch c now k
  | .set now k v => cacheInsert c now k v

/-- Run a sequence of operations against a cache tier. -/
def runOps {κ α : Type} [DecidableEq κ] (c : TTLCacheM κ α)
    (ops : List (CacheOp κ α)) : TTLCacheM κ α :=
  ops.foldl applyOp c

theorem cons_evict_length {β : Type} (x : β) (l : List β) (m : ℕ)
    (hl : l.length ≤ m) (hm : 1 ≤ m) :
    (x :: (if l.length + 1 > m then l.dropLast else l)).length ≤ m := by
  simp only [List.length_cons]
  split
  · rw [List.length_dropLast]
    omega
  · omega

theorem cacheInsert_length {κ α : Type} [DecidableEq κ] (c : TTLCacheM κ α)
    (now : ℚ) (k : κ) (v : α) (hcap : c.entries.length ≤ c.maxsize)
    (hpos : 1 ≤ c.maxsize) :
    (cacheInsert c now k v).entries.length ≤ c.maxsize := by
  simp only [cacheInsert]
  exact cons_evict_length _ _ _
    (le_trans (List.length_filter_le _ _)
      (le_trans (List.length_filter_le _ _) hcap)) hpos

theorem cacheTouch_length {κ α : Type} [DecidableEq κ] (c : TTLCacheM κ α)
    (now : ℚ) (k : κ) :
    (cacheTouch c now k).entries.length ≤ c.entries.length := by
  unfold cacheTouch
  cases hf : c.entries.find? (fun e => e.1 = k) with
  | none => exact le_refl _
  | some e =>
    dsimp only
    split
    · simp only [List.length_cons]
      have hmem := List.mem_of_find?_eq_some hf
      have hpe := List.find?_some hf
      have hlt : (c.entries.filter (fun x => decide (¬ x.1 = k))).length <
          c.entries.length := by
        apply List.length_filter_lt_length_iff_exists.mpr
        exact ⟨e, hmem, by simpa using of_decide_eq_true hpe⟩
      omega
    · exact le_refl _

theorem runOps_inv {κ α : Type} [DecidableEq κ] (ops : List (CacheOp κ α)) :
    ∀ c : TTLCacheM κ α, 1 ≤ c.maxsize → c.entries.length ≤ c.maxsize →
      (runOps c ops).maxsize = c.maxsize ∧
      (runOps c ops).entries.length ≤ c.maxsize := by
  induction ops with
  | nil => intro c _ h2; exact ⟨rfl, h2⟩
  | cons op ops ih =>
    intro c h1 h2
    unfold runOps at ih ⊢
    rw [List.foldl_cons]
    cases op with
    | get now k =>
      have h3 := ih (cacheTouch c now k)
        (by rw [cacheTouch_maxsize]; exact h1)
        (by rw [cacheTouch_maxsize]
            exact le_trans (cacheTouch_length c now k) h2)
      rwa [cacheTouch_maxsize] at h3
    | set now k v =>
      have h3 := ih (cacheInsert c now k v)
        (by rw [cacheInsert_maxsize]; exact h1)
        (by rw [cacheInsert_maxsize]
            exact cacheInsert_length c now k v h2 h1)
      rwa [cacheInsert_maxsize] at h3

/-- C6: (1) starting from an empty tier of capacity 100 (either TTL),
any sequence of reads and writes leaves at most 100 entries — writes
never fail; (2) a write to a full tier of unexpired entries under a
fresh key evicts exactly the least-recently-used entry (the last in
recency order) and retains all the more recently used ones. -/
theorem cache_capacity_lru :
    (∀ (ttl : ℚ) (ops : List (CacheOp String (List POI))),
      (runOps { maxsize := 100, ttl := ttl, entries := [] } ops).entries.length
        ≤ 100) ∧
    (∀ (κ α : Type) [DecidableEq κ] (c : TTLCacheM κ α) (now : ℚ) (k : κ)
        (v : α),
      1 ≤ c.maxsize →
      c.entries.length = c.maxsize →
      (∀ e ∈ c.entries, now < e.2.2 + c.ttl) →
      (∀ e ∈ c.entries, ¬ e.1 = k) →
      (cacheInsert c now k v).entries = (k, v, now) :: c.entries.dropLast) := by
  constructor
  · intro ttl ops
    exact (runOps_inv ops { maxsize := 100, ttl := ttl, entries := [] }
      (by norm_num) (by simp)).2
  · intro κ α inst c now k v h1 hfull hlive hkeys
    simp only [cacheInsert]
    have hl : c.entries.filter (fun e => decide (now < e.2.2 + c.ttl)) =
        c.entries :=
      List.filter_eq_self.mpr (fun a ha => decide_eq_true (hlive a ha))
    rw [hl]
    have hk2 : c.entries.filter (fun e => decide (¬ e.1 = k)) = c.entries :=
      List.filter_eq_self.mpr (fun a ha => decide_eq_true (hkeys a ha))
    rw [hk2]
    rw [if_pos (by omega : c.entries.length + 1 > c.maxsize)]

/-- A full concrete tier of capacity 100, for the C6 witness. -/
def wcache : TTLCacheM ℕ ℕ :=
  { maxsize := 100, ttl := 1,
    entries := (List.range 100).map (fun i => (i, 0, 0)) }

/-- Witness for C6: inserting a fresh key into the full concrete tier
evicts exactly the least-recently-used entry. -/
theorem cache_capacity_lru_witness :
    (cacheInsert wcache 0 1000 7).entries =
      (1000, 7, 0) :: wcache.entries.dropLast :=
  cache_capacity_lru.2 ℕ ℕ wcache 0 1000 7
    (by norm_num [wcache])
    (by simp [wcache])
    (by
      intro e he
      simp only [wcache, List.mem_map, List.mem_range] at he
      obtain ⟨i, _, rfl⟩ := he
      norm_num [wcache])
    (by
      intro e he
      simp only [wcache, List.mem_map, List.mem_range] at he
      obtain ⟨i, hi, rfl⟩ := he
      omega)

end Turismo
